import Mathlib

/-!
Shallow embedding of src/real_server_deploy.py (patriksharma/servermonitoring).

Timestamps are modelled as natural numbers (Python wall-clock times are
nonnegative reals; the claims are stated at integer instants).  Where the
source subtracts a window from a timestamp (`time.time() - 60`), the
comparison is carried out in the integers, exactly mirroring the Python
arithmetic, so that a negative cutoff behaves as in the source.

The source keeps its state in module-level globals and branches on the
global `USE_REDIS` inside every metric function.  The embedding passes a
`ServerState` record explicitly and keeps the per-function `if USE_REDIS`
branch.  Redis itself is modelled as the key/expiry store the source uses:
a list of user keys with their expiry instants, a map from minute index to
(counter value, expiry instant), and the non-expiring total counter.  A key
set with `r.expire(k, ttl)` at instant `s` is visible to reads at instant
`now` exactly when `now < s + ttl`.

Calls over the Redis connection can fail (the library raises, the route
catches); fallible operations therefore return `Except String`, where the
`String` is the raw exception text `str(e)`.  The parameter
`conn : Option String` models the connection: `none` means the connection
is up, `some e` means every data operation on it raises with text `e`.
-/

namespace ServerMonitoring

/-- Configuration constant from line 41 of the source: users inactive for
30 seconds are removed. -/
def USER_TIMEOUT_SECONDS : ℕ := 30

/-- One entry of the in-memory `visit_log`: the source stores dictionaries
of the form `{timestamp, user_id}`. -/
structure Visit where
  timestamp : ℕ
  user_id : String
  deriving DecidableEq

/-- The part of the Redis keyspace the source touches: user presence keys
`user:{id}` with their expiry instant, transaction-minute counters
`transactions:{m}` with value and expiry instant, and the non-expiring
`total_transactions` counter.  The `last_seen` field the source writes with
`hset` is never read back, so only the expiry instant of a user key is kept. -/
structure RedisState where
  users : List (String × ℕ)
  tx : ℕ → Option (ℕ × ℕ)
  total_transactions : ℕ

/-- The module-level mutable state of the source: the in-memory stores
(lines 49-52), the fault-injection flags (lines 44-45) and the Redis
keyspace. -/
structure ServerState where
  visit_log : List Visit
  transaction_log : List ℕ
  response_times : List ℚ
  force_critical : Bool
  critical_error_message : Option String
  redis : RedisState

/-- State at process start: every store empty, fault flag clear. -/
def initialState : ServerState :=
  ⟨[], [], [], false, none, ⟨[], fun _ => none, 0⟩⟩

/-- A call over the Redis connection: it returns its result when the
connection is up and raises the connection error text otherwise. -/
def redisOp {α : Type} (conn : Option String) (x : α) : Except String α :=
  match conn with
  | some e => Except.error e
  | none => Except.ok x

/-- Upsert of a user presence key: `r.hset` followed by `r.expire` leaves
exactly one key for `uid`, expiring at the given instant. -/
def upsertUser (users : List (String × ℕ)) (uid : String) (expiry : ℕ) :
    List (String × ℕ) :=
  users.filter (fun p => decide (p.1 ≠ uid)) ++ [(uid, expiry)]

/-- The `INCR` plus `EXPIRE 120` pair of lines 119-121: an expired or
missing counter restarts from zero before the increment, and the expiry is
reset to 120 seconds from now. -/
def incrBucket (tx : ℕ → Option (ℕ × ℕ)) (m now : ℕ) : ℕ → Option (ℕ × ℕ) :=
  let old := match tx m with
    | some (v, e) => if now < e then v else 0
    | none => 0
  fun m2 => if m2 = m then some (old + 1, now + 120) else tx m2

/-- The `int(r.get(...) or 0)` read of a minute counter, honouring expiry. -/
def readBucket (tx : ℕ → Option (ℕ × ℕ)) (m now : ℕ) : ℕ :=
  match tx m with
  | some (v, e) => if now < e then v else 0
  | none => 0

/-- Lines 82-99, `track_user_visit`: Redis branch upserts the user key with
a 30-second expiry; in-memory branch removes old entries for this user,
appends the new one and prunes entries at or below `now - 30`. -/
def track_user_visit (useRedis : Bool) (conn : Option String)
    (s : ServerState) (uid : String) (now : ℕ) : Except String ServerState :=
  if useRedis then
    redisOp conn { s with redis :=
      { s.redis with users := upsertUser s.redis.users uid (now + USER_TIMEOUT_SECONDS) } }
  else
    let refreshed := s.visit_log.filter (fun v => decide (v.user_id ≠ uid)) ++ [⟨now, uid⟩]
    let pruned :=
      refreshed.filter (fun v => decide ((v.timestamp : ℤ) > (now : ℤ) - (USER_TIMEOUT_SECONDS : ℤ)))
    Except.ok { s with visit_log := pruned }

/-- The set comprehension of line 111: distinct user ids seen strictly
within the last 30 seconds (`dedup` of the id list models the Python set). -/
def activeIds (log : List Visit) (now : ℕ) : List String :=
  ((log.filter
      (fun v => decide ((v.timestamp : ℤ) > (now : ℤ) - (USER_TIMEOUT_SECONDS : ℤ)))).map
    Visit.user_id).dedup

/-- The user keys `scan_iter` would return at instant `now`: keys whose
expiry lies strictly in the future. -/
def liveUserKeys (users : List (String × ℕ)) (now : ℕ) : List String :=
  (users.filter (fun p => decide (now < p.2))).map Prod.fst

/-- Lines 101-112, `get_connected_users`: Redis branch counts the live
`user:*` keys; in-memory branch counts distinct recently seen user ids. -/
def get_connected_users (useRedis : Bool) (conn : Option String)
    (s : ServerState) (now : ℕ) : Except String ℕ :=
  if useRedis then
    redisOp conn (liveUserKeys s.redis.users now).length
  else
    Except.ok (activeIds s.visit_log now).length

/-- Lines 114-124, `track_transaction`: Redis branch increments the
current-minute bucket `transactions:{int(now/60)}` (expiry 120 s) and the
lifetime total; in-memory branch appends the timestamp to the log. -/
def track_transaction (useRedis : Bool) (conn : Option String)
    (s : ServerState) (now : ℕ) : Except String ServerState :=
  if useRedis then
    redisOp conn { s with redis :=
      { s.redis with
        tx := incrBucket s.redis.tx (now / 60) now,
        total_transactions := s.redis.total_transactions + 1 } }
  else
    Except.ok { s with transaction_log := s.transaction_log ++ [now] }

/-- Lines 126-134, `get_transactions_per_minute`: Redis branch reads the
fixed calendar bucket `transactions:{int(now/60)}`; in-memory branch counts
log entries strictly newer than `now - 60` (a rolling window). -/
def get_transactions_per_minute (useRedis : Bool) (conn : Option String)
    (s : ServerState) (now : ℕ) : Except String ℕ :=
  if useRedis then
    redisOp conn (readBucket s.redis.tx (now / 60) now)
  else
    Except.ok
      (s.transaction_log.filter (fun tr : ℕ => decide ((tr : ℤ) > (now : ℤ) - 60))).length

/-- Lines 136-141, `get_total_transactions`. -/
def get_total_transactions (useRedis : Bool) (conn : Option String)
    (s : ServerState) : Except String ℕ :=
  if useRedis then
    redisOp conn s.redis.total_transactions
  else
    Except.ok s.transaction_log.length

/-- Lines 25-35, the list maintenance of `track_response_time`: append the
elapsed milliseconds, then `pop(0)` once the length passes 100. -/
def track_response_time (s : ServerState) (elapsed_ms : ℚ) : ServerState :=
  let rt := s.response_times ++ [elapsed_ms]
  { s with response_times := if rt.length > 100 then rt.eraseIdx 0 else rt }

/-- Rounding to two decimal places, modelling Python `round(x, 2)`. -/
def round2 (q : ℚ) : ℚ := ((round (q * 100) : ℤ) : ℚ) / 100

/-- Lines 143-147, `get_average_response_time`: zero on an empty sample,
otherwise the rounded arithmetic mean. -/
def get_average_response_time (s : ServerState) : ℚ :=
  if s.response_times = [] then 0
  else round2 (s.response_times.sum / (s.response_times.length : ℚ))

/-- The canned scenario messages of lines 385-391. -/
def error_messages : String → Option String
  | "database" => some "Database connection pool exhausted"
  | "memory" => some "Memory usage critical - 95% used"
  | "disk" => some "Disk space critical - 98% full"
  | "api" => some "External API timeout - payment gateway unreachable"
  | "cpu" => some "CPU usage critical - 99% sustained load"
  | _ => none

/-- Lines 375-401, the `/simulate-error` route: the scenario label defaults
to `database` when absent, unrecognized labels fall back to the generic
message, and the chosen message is stored as the forced-fault message.  The
returned string is the message echoed in the response body. -/
def simulate_error (s : ServerState) (error_type : Option String) :
    ServerState × String :=
  let et := error_type.getD "database"
  let msg := (error_messages et).getD "Unknown critical error"
  ({ s with force_critical := true, critical_error_message := some msg }, msg)

/-- Lines 403-414, the `/force-healthy` route: clears the forced-fault flag
and its message. -/
def force_healthy (s : ServerState) : ServerState :=
  { s with force_critical := false, critical_error_message := none }

/-- The `metrics` object of the `/ping` response (lines 339-345). -/
structure Metrics where
  transactions_per_minute : ℕ
  connected_users : ℕ
  total_transactions : ℕ
  uptime_seconds : ℕ
  response_time_ms : ℚ

/-- The observable part of a `/ping` response: the status string, the
metrics object (absent in the generic exception handler of lines 358-364),
the optional `error` and `error_code` fields and the HTTP status code. -/
structure PingResponse where
  status : String
  metrics : Option Metrics
  error : Option String
  error_code : Option String
  http_code : ℕ

/-- The body of the `try` block of `/ping` (lines 307-356): track the
visit, read all metrics, then evaluate the health verdict.  Any raised
backend error propagates out of this computation.  `ping_ok` is the outcome
of the `r.ping()` liveness probe on line 330 (its failure is caught by the
inner handler of lines 329-334). -/
def ping_body (useRedis : Bool) (conn : Option String) (ping_ok : Bool)
    (s : ServerState) (uid : String) (now start_time : ℕ) :
    Except String (ServerState × PingResponse) := do
  let s1 ← track_user_visit useRedis conn s uid now
  let users ← get_connected_users useRedis conn s1 now
  let tpm ← get_transactions_per_minute useRedis conn s1 now
  let total ← get_total_transactions useRedis conn s1
  let uptime := now - start_time
  let response_time := get_average_response_time s1
  let verdict :=
    if s1.force_critical then
      (false, s1.critical_error_message, some "SIMULATED_ERROR")
    else if useRedis && !ping_ok then
      (false, some "Redis connection lost", some "REDIS_CONNECTION_ERROR")
    else
      (true, none, none)
  let is_healthy := verdict.1
  pure (s1,
    { status := if is_healthy then "healthy" else "critical"
      metrics := some ⟨tpm, users, total, uptime, response_time⟩
      error := if is_healthy then none else verdict.2.1
      error_code := if is_healthy then none else verdict.2.2
      http_code := if is_healthy then 200 else 503 })

/-- The `/ping` route (lines 304-364): the body together with the generic
exception handler, which returns the raw exception text `str(e)` under the
code `INTERNAL_ERROR` and no metrics object. -/
def ping (useRedis : Bool) (conn : Option String) (ping_ok : Bool)
    (s : ServerState) (uid : String) (now start_time : ℕ) :
    ServerState × PingResponse :=
  match ping_body useRedis conn ping_ok s uid now start_time with
  | Except.ok r => r
  | Except.error e =>
    (s, { status := "critical", metrics := none, error := some e,
          error_code := some "INTERNAL_ERROR", http_code := 503 })

/-- Requests that mutate the tracked state: a visit by a fingerprint and a
transaction, each at a wall-clock instant. -/
inductive Op where
  | visit (uid : String) (t : ℕ)
  | tx (t : ℕ)

/-- The wall-clock instant at which an operation happens. -/
def opTime : Op → ℕ
  | Op.visit _ t => t
  | Op.tx t => t

/-- Execute one operation over a live connection (`conn = none`, so the
operation cannot fail; the fallback branch is unreachable). -/
def applyOp (useRedis : Bool) (s : ServerState) : Op → ServerState
  | Op.visit uid t =>
    match track_user_visit useRedis none s uid t with
    | Except.ok s2 => s2
    | Except.error _ => s
  | Op.tx t =>
    match track_transaction useRedis none s t with
    | Except.ok s2 => s2
    | Except.error _ => s

/-- Execute a sequence of operations over a live connection. -/
def run (useRedis : Bool) (s : ServerState) (ops : List Op) : ServerState :=
  ops.foldl (applyOp useRedis) s

/-- The list of instants is nondecreasing. -/
def monotoneTimes : List ℕ → Bool
  | [] => true
  | [_] => true
  | a :: b :: l => (a ≤ b : Bool) && monotoneTimes (b :: l)

/-- The operations happen at nondecreasing instants starting no earlier
than `T`, and the read instant `now` is no earlier than the last of them. -/
def chrono (T : ℕ) (ops : List Op) (now : ℕ) : Bool :=
  monotoneTimes (T :: ops.map opTime ++ [now])

/-- The suffix of the most recent `n` entries. -/
def lastN (n : ℕ) (l : List α) : List α := l.drop (l.length - n)

/-- Lookup of a key in the modelled Redis keyspace (first matching entry). -/
def rlookup (users : List (String × ℕ)) (k : String) : Option ℕ :=
  (users.find? (fun p => p.1 == k)).map Prod.snd

/-- Relation between the in-memory visit log and the Redis user keyspace
after the same operations have been applied to both variants, all
operation instants being at most `T`.  A visitor still present in the
in-memory log is keyed in Redis with expiry `last seen + window`; a Redis
key whose visitor has been pruned from the in-memory log is already expired
at every instant from `T` on. -/
structure PresenceInv (mem : List Visit) (users : List (String × ℕ)) (T : ℕ) : Prop where
  memNodup : (mem.map Visit.user_id).Nodup
  usersNodup : (users.map Prod.fst).Nodup
  memBound : ∀ v ∈ mem, v.timestamp ≤ T
  memUsers : ∀ v ∈ mem, rlookup users v.user_id = some (v.timestamp + USER_TIMEOUT_SECONDS)
  orphanDead : ∀ p ∈ users, (∀ v ∈ mem, v.user_id ≠ p.1) → p.2 ≤ T

/-!
General lemmas about the embedding, shared by the claim theorems.
-/

/-- Bind on a successful backend call reduces to the continuation. -/
@[simp]
theorem ok_bind {α β : Type} (a : α) (f : α → Except String β) :
    (Except.ok a : Except String α) >>= f = f a := rfl

/-- Bind on a raised backend error propagates the error. -/
@[simp]
theorem error_bind {α β : Type} (e : String) (f : α → Except String β) :
    (Except.error e : Except String α) >>= f = Except.error e := rfl

/-- A sample of at most `n` entries is its own `n`-suffix. -/
theorem lastN_of_le {l : List α} {n : ℕ} (h : l.length ≤ n) : lastN n l = l := by
  unfold lastN
  rw [Nat.sub_eq_zero_of_le h, List.drop_zero]

/-- Dropping to the `n`-suffix ignores an entry in front of at least `n`
retained ones. -/
theorem lastN_cons {a : α} {l : List α} {n : ℕ} (h : n ≤ l.length) :
    lastN n (a :: l) = lastN n l := by
  unfold lastN
  have h2 : (a :: l).length - n = (l.length - n) + 1 := by
    simp only [List.length_cons]
    omega
  rw [h2, List.drop_succ_cons]

/-- Folding the latency tracker over a sample list keeps exactly the most
recent 100 observations, provided the starting sample is within capacity. -/
theorem foldl_track_response_time (l : List ℚ) :
    ∀ s : ServerState, s.response_times.length ≤ 100 →
      (l.foldl track_response_time s).response_times
        = lastN 100 (s.response_times ++ l) := by
  induction l with
  | nil =>
    intro s h
    simpa using (lastN_of_le (by simpa using h)).symm
  | cons x xs ih =>
    intro s h
    rw [List.foldl_cons]
    rcases Nat.lt_or_ge s.response_times.length 100 with hlt | hge
    · have hstep : track_response_time s x
          = { s with response_times := s.response_times ++ [x] } := by
        simp only [track_response_time]
        rw [if_neg (by simp only [List.length_append, List.length_singleton]; omega)]
      rw [hstep]
      have := ih { s with response_times := s.response_times ++ [x] }
        (by simp only [List.length_append, List.length_singleton]; omega)
      rw [this]
      simp [List.append_assoc]
    · have heq : s.response_times.length = 100 := le_antisymm h hge
      cases hrt : s.response_times with
      | nil => rw [hrt] at heq; simp at heq
      | cons a rt0 =>
        have hlen0 : rt0.length = 99 := by
          rw [hrt] at heq
          simpa using heq
        have hstep : track_response_time s x
            = { s with response_times := rt0 ++ [x] } := by
          simp only [track_response_time, hrt]
          rw [if_pos (by simp only [List.length_append, List.length_cons,
            List.length_singleton, hlen0]; omega)]
          rfl
        rw [hstep]
        have := ih { s with response_times := rt0 ++ [x] }
          (by simp only [List.length_append, List.length_singleton, hlen0]; omega)
        rw [this]
        have hlong : 100 ≤ (rt0 ++ x :: xs).length := by
          simp only [List.length_append, List.length_cons, hlen0]
          omega
        simp only [List.append_assoc, List.singleton_append]
        exact (lastN_cons hlong).symm

/-- Running a list of transaction events appends exactly their timestamps
to the in-memory transaction log. -/
theorem run_tx_log (ts : List ℕ) :
    ∀ s : ServerState,
      (run false s (ts.map Op.tx)).transaction_log = s.transaction_log ++ ts := by
  induction ts with
  | nil => intro s; simp [run]
  | cons t rest ih =>
    intro s
    simp only [List.map_cons, run, List.foldl_cons]
    have hstep : applyOp false s (Op.tx t)
        = { s with transaction_log := s.transaction_log ++ [t] } := rfl
    rw [hstep]
    have := ih { s with transaction_log := s.transaction_log ++ [t] }
    simp only [run] at this
    rw [this]
    simp

/-- Running a list of transaction events adds exactly their count to the
Redis lifetime total. -/
theorem run_tx_total (ts : List ℕ) :
    ∀ s : ServerState,
      (run true s (ts.map Op.tx)).redis.total_transactions
        = s.redis.total_transactions + ts.length := by
  induction ts with
  | nil => intro s; simp [run]
  | cons t rest ih =>
    intro s
    simp only [List.map_cons, run, List.foldl_cons]
    have hstep : applyOp true s (Op.tx t)
        = { s with redis :=
            { s.redis with
              tx := incrBucket s.redis.tx (t / 60) t,
              total_transactions := s.redis.total_transactions + 1 } } := rfl
    rw [hstep]
    have := ih { s with redis :=
      { s.redis with
        tx := incrBucket s.redis.tx (t / 60) t,
        total_transactions := s.redis.total_transactions + 1 } }
    simp only [run] at this
    rw [this]
    simp only [List.length_cons]
    omega

/-!
Claim theorems.
-/

/-- C1 counterexample: a single transaction recorded at second 59 and read
at second 61 yields 1, not 0, in the in-memory variant, because that
variant counts a rolling 60-second window; the external variant, reading
the fixed calendar bucket, yields 0.  The claim asserts 0 for both
variants, so it fails on the in-memory variant. -/
theorem c1_counterexample :
    ((track_transaction false none initialState 59).bind
      (fun s2 => get_transactions_per_minute false none s2 61)) = Except.ok 1 ∧
    ((track_transaction false none initialState 59).bind
      (fun s2 => get_transactions_per_minute false none s2 61)) ≠ Except.ok 0 ∧
    ((track_transaction true none initialState 59).bind
      (fun s2 => get_transactions_per_minute true none s2 61)) = Except.ok 0 := by
  refine ⟨rfl, ?_, rfl⟩
  intro h
  rw [show ((track_transaction false none initialState 59).bind
      (fun s2 => get_transactions_per_minute false none s2 61)) = Except.ok 1 from rfl] at h
  simp at h

/-- C1 amended: only the external variant reads the fixed calendar bucket
`floor(now/60)`, so an increment whose bucket differs from the bucket read
is invisible there; the in-memory variant instead counts every logged
transaction strictly newer than `now - 60`, a rolling window. -/
theorem c1_amended :
    (∀ (s : ServerState) (t now : ℕ), t / 60 ≠ now / 60 →
      (track_transaction true none s t).bind
          (fun s2 => get_transactions_per_minute true none s2 now)
        = get_transactions_per_minute true none s now) ∧
    (∀ (t now : ℕ),
      (track_transaction false none initialState t).bind
          (fun s2 => get_transactions_per_minute false none s2 now)
        = Except.ok (if (t : ℤ) > (now : ℤ) - 60 then 1 else 0)) := by
  constructor
  · intro s t now h
    show Except.ok (readBucket (incrBucket s.redis.tx (t / 60) t) (now / 60) now)
        = Except.ok (readBucket s.redis.tx (now / 60) now)
    simp only [readBucket, incrBucket]
    rw [if_neg (fun hh => h hh.symm)]
  · intro t now
    show Except.ok ((List.filter (fun x : ℕ => decide ((x : ℤ) > (now : ℤ) - 60)) [t]).length)
        = Except.ok (if (t : ℤ) > (now : ℤ) - 60 then 1 else 0)
    by_cases h : ((t : ℤ) > (now : ℤ) - 60)
    · simp [List.filter_cons, h]
    · simp [List.filter_cons, h]

/-- C1 amended witness at the concrete input of the counterexample:
bucket 0 (second 59) differs from bucket 1 (second 61), so the external
read at 61 is unaffected by the increment at 59. -/
theorem c1_amended_witness :
    (59 / 60 ≠ 61 / 60) ∧
    ((track_transaction true none initialState 59).bind
        (fun s2 => get_transactions_per_minute true none s2 61)
      = get_transactions_per_minute true none initialState 61) :=
  ⟨by decide, c1_amended.1 initialState 59 61 (by decide)⟩

/-- C8: `simulate_error` never rejects its scenario label.  The flag is
always set, the stored message always equals the echoed one, recognized
labels map to their canned message, every unrecognized label maps to the
generic message, and an absent label defaults to the database scenario. -/
theorem c8 : ∀ (s : ServerState) (lbl : Option String),
    (simulate_error s lbl).1.force_critical = true ∧
    (simulate_error s lbl).1.critical_error_message = some (simulate_error s lbl).2 ∧
    (error_messages (lbl.getD "database") = none →
      (simulate_error s lbl).2 = "Unknown critical error") ∧
    (∀ m : String, error_messages (lbl.getD "database") = some m →
      (simulate_error s lbl).2 = m) ∧
    (simulate_error s (some "memory")).2 = "Memory usage critical - 95% used" ∧
    (simulate_error s none).2 = "Database connection pool exhausted" ∧
    (simulate_error s (some "weird-label")).2 = "Unknown critical error" := by
  intro s lbl
  refine ⟨rfl, rfl, ?_, ?_, rfl, rfl, rfl⟩
  · intro h
    simp [simulate_error, h]
  · intro m h
    simp [simulate_error, h]

/-- C8 witness: the unrecognized label `nonsense` falls back to the
generic message. -/
theorem c8_witness :
    error_messages ((some "nonsense").getD "database") = none ∧
    (simulate_error initialState (some "nonsense")).2 = "Unknown critical error" :=
  ⟨rfl, (c8 initialState (some "nonsense")).2.2.1 rfl⟩

/-- C9: the in-memory expiry boundary is exclusive at exactly the window
length.  After a visit at `t`, the visitor is already absent from the
active set at `t + 30`; from a fresh state the count at `t + 30` is 0; and
in general the filter drops any record whose age equals the window. -/
theorem c9 :
    (∀ (s s2 : ServerState) (uid : String) (t : ℕ),
      track_user_visit false none s uid t = Except.ok s2 →
      uid ∉ activeIds s2.visit_log (t + USER_TIMEOUT_SECONDS)) ∧
    (∀ (uid : String) (t : ℕ),
      ((track_user_visit false none initialState uid t).bind
        (fun s2 => get_connected_users false none s2 (t + USER_TIMEOUT_SECONDS)))
        = Except.ok 0) ∧
    (∀ (log : List Visit) (v : Visit) (now : ℕ),
      (v.timestamp : ℤ) = (now : ℤ) - (USER_TIMEOUT_SECONDS : ℤ) →
      v ∉ log.filter
        (fun v2 => decide ((v2.timestamp : ℤ) > (now : ℤ) - (USER_TIMEOUT_SECONDS : ℤ)))) := by
  refine ⟨?_, ?_, ?_⟩
  · intro s s2 uid t h
    simp only [track_user_visit, if_neg Bool.false_ne_true, Except.ok.injEq] at h
    subst h
    simp only [activeIds, List.mem_dedup, List.mem_map, List.mem_filter, List.mem_append,
      List.mem_singleton, decide_eq_true_eq, USER_TIMEOUT_SECONDS]
    rintro ⟨v, ⟨⟨⟨hv | hv, hkeep⟩, halive⟩, huid⟩⟩
    · exact hv.2 huid
    · subst hv
      push_cast at halive
      omega
  · intro uid t
    simp [track_user_visit, get_connected_users, activeIds, initialState,
      USER_TIMEOUT_SECONDS, List.filter_cons, Except.bind]
  · intro log v now h hv
    rw [List.mem_filter] at hv
    have h2 := of_decide_eq_true hv.2
    omega

/-- C9 witness: a fresh visit at instant 0 is already excluded at
instant 30. -/
theorem c9_witness :
    (track_user_visit false none initialState "u" 0
      = Except.ok { initialState with visit_log := [⟨0, "u"⟩] }) ∧
    "u" ∉ activeIds [⟨0, "u"⟩] (0 + USER_TIMEOUT_SECONDS) :=
  ⟨rfl, c9.1 initialState { initialState with visit_log := [⟨0, "u"⟩] } "u" 0 rfl⟩

/-- C10: in the in-memory variant the per-minute rate is a filtered count
over the same append-only transaction log whose length is the lifetime
total, so after any sequence of operations the rate never exceeds the
total; and no operation ever removes entries from the log. -/
theorem c10 :
    (∀ (ops : List Op) (now : ℕ), ∃ m n : ℕ,
      get_transactions_per_minute false none (run false initialState ops) now
        = Except.ok m ∧
      get_total_transactions false none (run false initialState ops) = Except.ok n ∧
      m ≤ n) ∧
    (∀ (s : ServerState) (op : Op), ∃ growth : List ℕ,
      (applyOp false s op).transaction_log = s.transaction_log ++ growth) := by
  constructor
  · intro ops now
    refine ⟨_, _, rfl, rfl, ?_⟩
    exact List.length_filter_le _ _
  · intro s op
    cases op with
    | visit uid t => exact ⟨[], by simp [applyOp, track_user_visit]⟩
    | tx t => exact ⟨[t], by simp [applyOp, track_transaction]⟩

/-- C4: with the configured 30-second window, a fingerprint tracked at `t`
and not tracked again is still active at `t + 29` and no longer active at
`t + 31`, in both backend variants; from a fresh state the reported counts
at those instants are 1 and 0. -/
theorem c4 :
    USER_TIMEOUT_SECONDS = 30 ∧
    (∀ (s s2 : ServerState) (uid : String) (t : ℕ),
      track_user_visit false none s uid t = Except.ok s2 →
      uid ∈ activeIds s2.visit_log (t + USER_TIMEOUT_SECONDS - 1) ∧
      uid ∉ activeIds s2.visit_log (t + USER_TIMEOUT_SECONDS + 1)) ∧
    (∀ (s s2 : ServerState) (uid : String) (t : ℕ),
      track_user_visit true none s uid t = Except.ok s2 →
      uid ∈ liveUserKeys s2.redis.users (t + USER_TIMEOUT_SECONDS - 1) ∧
      uid ∉ liveUserKeys s2.redis.users (t + USER_TIMEOUT_SECONDS + 1)) ∧
    (((track_user_visit false none initialState "u" 5).bind
        (fun s2 => get_connected_users false none s2 34)) = Except.ok 1 ∧
      ((track_user_visit false none initialState "u" 5).bind
        (fun s2 => get_connected_users false none s2 36)) = Except.ok 0 ∧
      ((track_user_visit true none initialState "u" 5).bind
        (fun s2 => get_connected_users true none s2 34)) = Except.ok 1 ∧
      ((track_user_visit true none initialState "u" 5).bind
        (fun s2 => get_connected_users true none s2 36)) = Except.ok 0) := by
  refine ⟨rfl, ?_, ?_, rfl, rfl, rfl, rfl⟩
  · intro s s2 uid t h
    simp only [track_user_visit, if_neg Bool.false_ne_true, Except.ok.injEq] at h
    subst h
    constructor
    · simp only [activeIds, List.mem_dedup, List.mem_map]
      refine ⟨⟨t, uid⟩, ?_, rfl⟩
      simp only [List.mem_filter, List.mem_append, List.mem_singleton,
        decide_eq_true_eq, USER_TIMEOUT_SECONDS]
      refine ⟨⟨Or.inr trivial, ?_⟩, ?_⟩ <;> (push_cast; omega)
    · simp only [activeIds, List.mem_dedup, List.mem_map, List.mem_filter,
        List.mem_append, List.mem_singleton, decide_eq_true_eq, USER_TIMEOUT_SECONDS]
      rintro ⟨v, ⟨⟨⟨hv | hv, hkeep⟩, halive⟩, huid⟩⟩
      · exact hv.2 huid
      · subst hv
        push_cast at halive
        omega
  · intro s s2 uid t h
    simp only [track_user_visit, if_pos, redisOp, Except.ok.injEq] at h
    subst h
    constructor
    · simp only [liveUserKeys, List.mem_map, upsertUser]
      refine ⟨(uid, t + USER_TIMEOUT_SECONDS), ?_, rfl⟩
      simp only [List.mem_filter, List.mem_append, List.mem_singleton,
        decide_eq_true_eq, USER_TIMEOUT_SECONDS]
      exact ⟨Or.inr trivial, by omega⟩
    · simp only [liveUserKeys, List.mem_map, upsertUser, List.mem_filter,
        List.mem_append, List.mem_singleton, decide_eq_true_eq, USER_TIMEOUT_SECONDS]
      rintro ⟨p, ⟨⟨hp | hp, halive⟩, hfst⟩⟩
      · exact hp.2 hfst
      · subst hp
        omega

/-- C4 witness: at the concrete instant 5, the visitor is active at
instant 34 and inactive at instant 36 in both variants. -/
theorem c4_witness :
    (track_user_visit false none initialState "u" 5
        = Except.ok { initialState with visit_log := [⟨5, "u"⟩] } ∧
      "u" ∈ activeIds [⟨5, "u"⟩] (5 + USER_TIMEOUT_SECONDS - 1) ∧
      "u" ∉ activeIds [⟨5, "u"⟩] (5 + USER_TIMEOUT_SECONDS + 1)) ∧
    (track_user_visit true none initialState "u" 5
        = Except.ok { initialState with
            redis := ⟨[("u", 5 + USER_TIMEOUT_SECONDS)], fun _ => none, 0⟩ } ∧
      "u" ∈ liveUserKeys [("u", 5 + USER_TIMEOUT_SECONDS)] (5 + USER_TIMEOUT_SECONDS - 1) ∧
      "u" ∉ liveUserKeys [("u", 5 + USER_TIMEOUT_SECONDS)] (5 + USER_TIMEOUT_SECONDS + 1)) := by
  refine ⟨⟨rfl, ?_⟩, ⟨rfl, ?_⟩⟩
  · exact c4.2.1 initialState _ "u" 5 rfl
  · exact c4.2.2.1 initialState _ "u" 5 rfl

/-- C5: the health verdict of `/ping` is evaluated fresh from the state on
every query, in order: forced fault wins over everything (including a
failing probe), else a failing Redis probe under the external variant, else
healthy; moreover `set_fault("memory")` then a query yields CRITICAL with
the canned memory message, and `clear_fault()` right after yields HEALTHY
with no error fields. -/
theorem c5 :
    (∀ (s : ServerState) (uid : String) (now st : ℕ) (useRedis pk : Bool),
      (s.force_critical = true →
        (ping useRedis none pk s uid now st).2.status = "critical" ∧
        (ping useRedis none pk s uid now st).2.error_code = some "SIMULATED_ERROR" ∧
        (ping useRedis none pk s uid now st).2.error = s.critical_error_message ∧
        (ping useRedis none pk s uid now st).2.http_code = 503) ∧
      (s.force_critical = false → useRedis = true → pk = false →
        (ping useRedis none pk s uid now st).2.status = "critical" ∧
        (ping useRedis none pk s uid now st).2.error_code = some "REDIS_CONNECTION_ERROR" ∧
        (ping useRedis none pk s uid now st).2.error = some "Redis connection lost") ∧
      (s.force_critical = false → (useRedis = false ∨ pk = true) →
        (ping useRedis none pk s uid now st).2.status = "healthy" ∧
        (ping useRedis none pk s uid now st).2.error = none ∧
        (ping useRedis none pk s uid now st).2.error_code = none ∧
        (ping useRedis none pk s uid now st).2.http_code = 200)) ∧
    (∀ (s : ServerState) (uid : String) (now st : ℕ),
      (ping false none true (simulate_error s (some "memory")).1 uid now st).2.status
          = "critical" ∧
      (ping false none true (simulate_error s (some "memory")).1 uid now st).2.error
          = some "Memory usage critical - 95% used" ∧
      (ping false none true (force_healthy (simulate_error s (some "memory")).1) uid now st).2.status
          = "healthy" ∧
      (ping false none true (force_healthy (simulate_error s (some "memory")).1) uid now st).2.error
          = none ∧
      (ping false none true (force_healthy (simulate_error s (some "memory")).1) uid now st).2.error_code
          = none) := by
  constructor
  · intro s uid now st useRedis pk
    refine ⟨?_, ?_, ?_⟩
    · intro hfc
      cases useRedis <;>
        simp [ping, ping_body, track_user_visit, get_connected_users,
          get_transactions_per_minute, get_total_transactions, redisOp, hfc]
    · intro hfc hur hpk
      subst hur
      subst hpk
      simp [ping, ping_body, track_user_visit, get_connected_users,
        get_transactions_per_minute, get_total_transactions, redisOp, hfc]
    · intro hfc hcase
      rcases hcase with h | h
      · subst h
        simp [ping, ping_body, track_user_visit, get_connected_users,
          get_transactions_per_minute, get_total_transactions, redisOp, hfc]
      · subst h
        cases useRedis <;>
          simp [ping, ping_body, track_user_visit, get_connected_users,
            get_transactions_per_minute, get_total_transactions, redisOp, hfc]
  · intro s uid now st
    refine ⟨?_, ?_, ?_, ?_, ?_⟩ <;>
      simp [ping, ping_body, track_user_visit, get_connected_users,
        get_transactions_per_minute, get_total_transactions, redisOp,
        simulate_error, force_healthy, error_messages]

/-- C5 witness: a forced fault with message `boom` dominates the verdict at
a concrete query. -/
theorem c5_witness :
    ({ initialState with
        force_critical := true, critical_error_message := some "boom" } : ServerState).force_critical = true ∧
    ((ping false none true { initialState with
        force_critical := true, critical_error_message := some "boom" } "u" 3 1).2.status = "critical" ∧
      (ping false none true { initialState with
        force_critical := true, critical_error_message := some "boom" } "u" 3 1).2.error_code
          = some "SIMULATED_ERROR" ∧
      (ping false none true { initialState with
        force_critical := true, critical_error_message := some "boom" } "u" 3 1).2.error = some "boom" ∧
      (ping false none true { initialState with
        force_critical := true, critical_error_message := some "boom" } "u" 3 1).2.http_code = 503) :=
  ⟨rfl, (c5.1 { initialState with
      force_critical := true, critical_error_message := some "boom" } "u" 3 1 false true).1 rfl⟩

/-- C6: the lifetime total after any sequence of recorded transactions
equals exactly their number in both variants, whatever the timestamps and
however many minute boundaries they cross; and each further record adds
exactly one, so the total never decreases and never expires. -/
theorem c6 :
    (∀ ts : List ℕ,
      get_total_transactions false none (run false initialState (ts.map Op.tx))
        = Except.ok ts.length ∧
      get_total_transactions true none (run true initialState (ts.map Op.tx))
        = Except.ok ts.length) ∧
    (∀ (s : ServerState) (t : ℕ),
      (track_transaction false none s t).bind
        (fun s2 => get_total_transactions false none s2)
        = Except.ok (s.transaction_log.length + 1) ∧
      (track_transaction true none s t).bind
        (fun s2 => get_total_transactions true none s2)
        = Except.ok (s.redis.total_transactions + 1)) := by
  constructor
  · intro ts
    constructor
    · show Except.ok (run false initialState (ts.map Op.tx)).transaction_log.length
          = Except.ok ts.length
      rw [run_tx_log]
      simp [initialState]
    · show Except.ok (run true initialState (ts.map Op.tx)).redis.total_transactions
          = Except.ok ts.length
      rw [run_tx_total]
      simp [initialState]
  · intro s t
    constructor
    · show Except.ok (s.transaction_log ++ [t]).length
          = Except.ok (s.transaction_log.length + 1)
      simp
    · rfl

/-- C7: the latency aggregator retains at most the 100 most recent samples,
oldest evicted first; after appending 150 samples the mean is the rounded
arithmetic mean of only the last 100; and the mean of an empty sample is 0
rather than an error. -/
theorem c7 :
    get_average_response_time initialState = 0 ∧
    (∀ l : List ℚ,
      (l.foldl track_response_time initialState).response_times = lastN 100 l) ∧
    (∀ l : List ℚ, l.length = 150 →
      get_average_response_time (l.foldl track_response_time initialState)
        = round2 ((l.drop 50).sum / 100)) := by
  refine ⟨rfl, ?_, ?_⟩
  · intro l
    have h := foldl_track_response_time l initialState (by simp [initialState])
    simpa [initialState] using h
  · intro l hlen
    have h1 : (l.foldl track_response_time initialState).response_times = lastN 100 l := by
      have h := foldl_track_response_time l initialState (by simp [initialState])
      simpa [initialState] using h
    have h2 : lastN 100 l = l.drop 50 := by
      unfold lastN
      rw [hlen]
    have h3 : (l.drop 50).length = 100 := by
      simp [hlen]
    have h4 : l.drop 50 ≠ [] := by
      intro hnil
      rw [hnil] at h3
      simp at h3
    rw [get_average_response_time, h1, h2, if_neg h4, h3]
    norm_num

/-- C7 witness: a concrete sample of 150 observations. -/
theorem c7_witness :
    (List.replicate 150 (1 : ℚ)).length = 150 ∧
    get_average_response_time
        ((List.replicate 150 (1 : ℚ)).foldl track_response_time initialState)
      = round2 (((List.replicate 150 (1 : ℚ)).drop 50).sum / 100) :=
  ⟨by simp, c7.2.2 _ (by simp)⟩

/-- C2 counterexample: with the external backend active and the connection
raising during the data operations of a health query, the `/ping` response
carries the raw exception text verbatim under the generic code
`INTERNAL_ERROR`, with no metrics at all (so no counters degraded to
zero); two different raw messages produce two different response bodies,
so the message is not canned. -/
theorem c2_counterexample :
    (ping true (some "Error 111 connecting to localhost:6379. Connection refused.")
        true initialState "u" 100 0).2.error
      = some "Error 111 connecting to localhost:6379. Connection refused." ∧
    (ping true (some "Error 111 connecting to localhost:6379. Connection refused.")
        true initialState "u" 100 0).2.error_code = some "INTERNAL_ERROR" ∧
    (ping true (some "Error 111 connecting to localhost:6379. Connection refused.")
        true initialState "u" 100 0).2.metrics = none ∧
    (ping true (some "raw failure A") true initialState "u" 100 0).2.error
      ≠ (ping true (some "raw failure B") true initialState "u" 100 0).2.error := by
  refine ⟨rfl, rfl, rfl, ?_⟩
  intro h
  rw [show (ping true (some "raw failure A") true initialState "u" 100 0).2.error
      = some "raw failure A" from rfl,
    show (ping true (some "raw failure B") true initialState "u" 100 0).2.error
      = some "raw failure B" from rfl] at h
  simp at h

/-- C2 amended: only a failure of the liveness probe after successful data
operations is reported with the stable canned code and message (and the
counters are then genuinely present); a backend failure during visit
tracking or the metric reads instead propagates to the generic handler,
which echoes the raw exception text under `INTERNAL_ERROR` and returns no
metric values at all. -/
theorem c2_amended : ∀ (e uid : String) (s : ServerState) (now st : ℕ) (pk : Bool),
    s.force_critical = false →
    ((ping true none false s uid now st).2.status = "critical" ∧
      (ping true none false s uid now st).2.error = some "Redis connection lost" ∧
      (ping true none false s uid now st).2.error_code = some "REDIS_CONNECTION_ERROR" ∧
      (ping true none false s uid now st).2.metrics ≠ none) ∧
    ((ping true (some e) pk s uid now st).2.status = "critical" ∧
      (ping true (some e) pk s uid now st).2.error = some e ∧
      (ping true (some e) pk s uid now st).2.error_code = some "INTERNAL_ERROR" ∧
      (ping true (some e) pk s uid now st).2.metrics = none) := by
  intro e uid s now st pk hfc
  constructor
  · simp [ping, ping_body, track_user_visit, get_connected_users,
      get_transactions_per_minute, get_total_transactions, redisOp, hfc]
  · simp [ping, ping_body, track_user_visit, get_connected_users,
      get_transactions_per_minute, get_total_transactions, redisOp]

/-- A failing boolean equality test on distinct strings. -/
theorem beq_false {a b : String} (h : a ≠ b) : (a == b) = false :=
  beq_eq_false_iff_ne.mpr h

/-- Unfolding of `rlookup` on a nonempty keyspace. -/
theorem rlookup_cons (p : String × ℕ) (ps : List (String × ℕ)) (k : String) :
    rlookup (p :: ps) k = if p.1 == k then some p.2 else rlookup ps k := by
  cases h : (p.1 == k) <;> simp [rlookup, List.find?_cons, h]

/-- Upserting commutes with a head entry carrying a different key. -/
theorem upsertUser_of_ne (p : String × ℕ) (ps : List (String × ℕ)) (uid : String)
    (e : ℕ) (h : p.1 ≠ uid) : upsertUser (p :: ps) uid e = p :: upsertUser ps uid e := by
  simp [upsertUser, List.filter_cons, h]

/-- Upserting absorbs a head entry carrying the same key. -/
theorem upsertUser_of_eq (p : String × ℕ) (ps : List (String × ℕ)) (uid : String)
    (e : ℕ) (h : p.1 = uid) : upsertUser (p :: ps) uid e = upsertUser ps uid e := by
  simp [upsertUser, List.filter_cons, h]

/-- Upserting a key makes it looked up with the new expiry. -/
theorem rlookup_upsert_self (users : List (String × ℕ)) (uid : String) (e : ℕ) :
    rlookup (upsertUser users uid e) uid = some e := by
  induction users with
  | nil => simp [upsertUser, rlookup_cons]
  | cons p ps ih =>
    by_cases h : p.1 = uid
    · rw [upsertUser_of_eq p ps uid e h]
      exact ih
    · rw [upsertUser_of_ne p ps uid e h, rlookup_cons, if_neg (by simp [beq_false h])]
      exact ih

/-- Upserting a key leaves every other lookup unchanged. -/
theorem rlookup_upsert_ne (users : List (String × ℕ)) (uid k : String) (e : ℕ)
    (hk : k ≠ uid) : rlookup (upsertUser users uid e) k = rlookup users k := by
  induction users with
  | nil =>
    show rlookup [(uid, e)] k = rlookup [] k
    rw [rlookup_cons, if_neg (by simp [beq_false (Ne.symm hk)])]
  | cons p ps ih =>
    by_cases h : p.1 = uid
    · have hpk : p.1 ≠ k := by
        rw [h]
        exact Ne.symm hk
      rw [upsertUser_of_eq p ps uid e h, ih, rlookup_cons, if_neg (by simp [beq_false hpk])]
    · rw [upsertUser_of_ne p ps uid e h, rlookup_cons, rlookup_cons, ih]

/-- With distinct keys, membership determines the lookup result. -/
theorem rlookup_of_mem (users : List (String × ℕ)) (p : String × ℕ)
    (hnd : (users.map Prod.fst).Nodup) (hp : p ∈ users) :
    rlookup users p.1 = some p.2 := by
  induction users with
  | nil => cases hp
  | cons q qs ih =>
    have hnd2 := List.nodup_cons.mp (show (q.1 :: qs.map Prod.fst).Nodup from hnd)
    rcases List.mem_cons.mp hp with rfl | hp2
    · rw [rlookup_cons, if_pos (by simp)]
    · have hq : q.1 ≠ p.1 := by
        intro he
        exact hnd2.1 (he ▸ List.mem_map_of_mem Prod.fst hp2)
      rw [rlookup_cons, if_neg (by simp [beq_false hq])]
      exact ih hnd2.2 hp2

/-- A successful lookup exhibits a member of the keyspace. -/
theorem mem_of_rlookup (users : List (String × ℕ)) (k : String) (e : ℕ)
    (h : rlookup users k = some e) : (k, e) ∈ users := by
  induction users with
  | nil => simp [rlookup] at h
  | cons p ps ih =>
    rw [rlookup_cons] at h
    by_cases hpk : (p.1 == k) = true
    · rw [if_pos hpk] at h
      have h1 : p.1 = k := by simpa using hpk
      have h2 : p.2 = e := by simpa using h
      have h3 : p = (k, e) := by
        calc p = (p.1, p.2) := rfl
          _ = (k, e) := by rw [h1, h2]
      rw [List.mem_cons]
      exact Or.inl h3.symm
    · rw [if_neg hpk] at h
      exact List.mem_cons_of_mem _ (ih h)

/-- Upserting preserves distinctness of the Redis keys. -/
theorem upsert_keys_nodup (users : List (String × ℕ)) (uid : String) (e : ℕ)
    (hnd : (users.map Prod.fst).Nodup) :
    ((upsertUser users uid e).map Prod.fst).Nodup := by
  unfold upsertUser
  rw [List.map_append, List.nodup_append]
  refine ⟨?_, by simp, ?_⟩
  · exact ((List.filter_sublist users).map Prod.fst).nodup hnd
  · intro a ha hb
    simp only [List.map_cons, List.map_nil, List.mem_singleton] at hb
    subst hb
    rcases List.mem_map.mp ha with ⟨p, hp, hfst⟩
    rw [List.mem_filter] at hp
    exact (of_decide_eq_true hp.2) hfst

/-- The presence invariant is upward closed in its time bound. -/
theorem presence_inv_mono {mem : List Visit} {users : List (String × ℕ)} {T T2 : ℕ}
    (inv : PresenceInv mem users T) (h : T ≤ T2) : PresenceInv mem users T2 where
  memNodup := inv.memNodup
  usersNodup := inv.usersNodup
  memBound := fun v hv => le_trans (inv.memBound v hv) h
  memUsers := inv.memUsers
  orphanDead := fun p hp hn => le_trans (inv.orphanDead p hp hn) h

/-- Unfolding of the monotonicity test on a list with two or more heads. -/
theorem monotoneTimes_cons2 (a b : ℕ) (l : List ℕ) :
    monotoneTimes (a :: b :: l) = ((a ≤ b : Bool) && monotoneTimes (b :: l)) := rfl

/-- One visit, applied to both variants at an instant no earlier than the
current bound, preserves the presence invariant at the visit instant. -/
theorem presence_inv_visit {mem : List Visit} {users : List (String × ℕ)} {T : ℕ}
    (inv : PresenceInv mem users T) (uid : String) (t : ℕ) (hT : T ≤ t) :
    PresenceInv
      ((mem.filter (fun v => decide (v.user_id ≠ uid)) ++ [Visit.mk t uid]).filter
        (fun v => decide ((v.timestamp : ℤ) > (t : ℤ) - (USER_TIMEOUT_SECONDS : ℤ))))
      (upsertUser users uid (t + USER_TIMEOUT_SECONDS)) t := by
  have hinner : (((mem.filter (fun v => decide (v.user_id ≠ uid)) ++ [Visit.mk t uid]).map
      Visit.user_id)).Nodup := by
    rw [List.map_append, List.nodup_append]
    refine ⟨((List.filter_sublist mem).map Visit.user_id).nodup inv.memNodup, by simp, ?_⟩
    intro a ha hb
    simp only [List.map_cons, List.map_nil, List.mem_singleton] at hb
    subst hb
    rcases List.mem_map.mp ha with ⟨v, hv, hid⟩
    rw [List.mem_filter] at hv
    exact (of_decide_eq_true hv.2) hid
  constructor
  · exact ((List.filter_sublist _).map Visit.user_id).nodup hinner
  · exact upsert_keys_nodup users uid (t + USER_TIMEOUT_SECONDS) inv.usersNodup
  · intro v hv
    have hv2 := List.mem_of_mem_filter hv
    rcases List.mem_append.mp hv2 with hold | hnew
    · exact le_trans (inv.memBound v (List.mem_of_mem_filter hold)) hT
    · rw [List.mem_singleton] at hnew
      subst hnew
      exact le_refl t
  · intro v hv
    have hv2 := List.mem_of_mem_filter hv
    rcases List.mem_append.mp hv2 with hold | hnew
    · rw [List.mem_filter] at hold
      have hne := of_decide_eq_true hold.2
      rw [rlookup_upsert_ne users uid v.user_id (t + USER_TIMEOUT_SECONDS) hne]
      exact inv.memUsers v hold.1
    · rw [List.mem_singleton] at hnew
      subst hnew
      exact rlookup_upsert_self users uid (t + USER_TIMEOUT_SECONDS)
  · intro p hp hnone
    rcases List.mem_append.mp hp with hold | hnew
    · rw [List.mem_filter] at hold
      have hpne := of_decide_eq_true hold.2
      by_cases hex : ∃ v ∈ mem, v.user_id = p.1
      · obtain ⟨v, hvmem, hvid⟩ := hex
        have hvinner : v ∈ mem.filter (fun v => decide (v.user_id ≠ uid)) ++ [Visit.mk t uid] := by
          refine List.mem_append.mpr (Or.inl ?_)
          rw [List.mem_filter]
          exact ⟨hvmem, decide_eq_true (by rw [hvid]; exact hpne)⟩
        have hvdead : ¬ ((v.timestamp : ℤ) > (t : ℤ) - (USER_TIMEOUT_SECONDS : ℤ)) := by
          intro halive
          refine hnone v ?_ hvid
          rw [List.mem_filter]
          exact ⟨hvinner, decide_eq_true halive⟩
        have hlook := inv.memUsers v hvmem
        rw [hvid] at hlook
        have hlook2 := rlookup_of_mem users p inv.usersNodup hold.1
        have hp2 : p.2 = v.timestamp + USER_TIMEOUT_SECONDS :=
          Option.some.inj (hlook2.symm.trans hlook)
        omega
      · push_neg at hex
        exact le_trans (inv.orphanDead p hold.1 hex) hT
    · rw [List.mem_singleton] at hnew
      subst hnew
      exfalso
      refine hnone (Visit.mk t uid) ?_ rfl
      rw [List.mem_filter]
      refine ⟨List.mem_append.mpr (Or.inr (List.mem_singleton.mpr rfl)), decide_eq_true ?_⟩
      show (t : ℤ) > (t : ℤ) - (USER_TIMEOUT_SECONDS : ℤ)
      simp only [USER_TIMEOUT_SECONDS]
      omega

/-- Under the presence invariant, both variants report the same number of
active visitors at any instant from the bound on. -/
theorem count_eq_of_inv {mem : List Visit} {users : List (String × ℕ)} {T now : ℕ}
    (inv : PresenceInv mem users T) (hT : T ≤ now) :
    (activeIds mem now).length = (liveUserKeys users now).length := by
  have hmA : ((mem.filter
      (fun v => decide ((v.timestamp : ℤ) > (now : ℤ) - (USER_TIMEOUT_SECONDS : ℤ)))).map
        Visit.user_id).Nodup :=
    ((List.filter_sublist mem).map Visit.user_id).nodup inv.memNodup
  have hmB : ((users.filter (fun p => decide (now < p.2))).map Prod.fst).Nodup :=
    ((List.filter_sublist users).map Prod.fst).nodup inv.usersNodup
  have hiff : ∀ a : String,
      a ∈ (mem.filter
          (fun v => decide ((v.timestamp : ℤ) > (now : ℤ) - (USER_TIMEOUT_SECONDS : ℤ)))).map
            Visit.user_id
        ↔ a ∈ (users.filter (fun p => decide (now < p.2))).map Prod.fst := by
    intro a
    constructor
    · intro ha
      rcases List.mem_map.mp ha with ⟨v, hv, hid⟩
      rw [List.mem_filter] at hv
      have halive := of_decide_eq_true hv.2
      have hmem : (v.user_id, v.timestamp + USER_TIMEOUT_SECONDS) ∈ users :=
        mem_of_rlookup _ _ _ (inv.memUsers v hv.1)
      refine List.mem_map.mpr ⟨(v.user_id, v.timestamp + USER_TIMEOUT_SECONDS), ?_, hid⟩
      rw [List.mem_filter]
      refine ⟨hmem, decide_eq_true ?_⟩
      omega
    · intro ha
      rcases List.mem_map.mp ha with ⟨p, hp, hid⟩
      rw [List.mem_filter] at hp
      have halive := of_decide_eq_true hp.2
      by_cases hex : ∃ v ∈ mem, v.user_id = p.1
      · obtain ⟨v, hvmem, hvid⟩ := hex
        have hlook := inv.memUsers v hvmem
        rw [hvid] at hlook
        have hlook2 := rlookup_of_mem users p inv.usersNodup hp.1
        have hp2 : p.2 = v.timestamp + USER_TIMEOUT_SECONDS :=
          Option.some.inj (hlook2.symm.trans hlook)
        refine List.mem_map.mpr ⟨v, ?_, by rw [hvid, hid]⟩
        rw [List.mem_filter]
        refine ⟨hvmem, decide_eq_true ?_⟩
        omega
      · push_neg at hex
        have := inv.orphanDead p hp.1 hex
        omega
  have hlen := ((List.perm_ext_iff_of_nodup hmA hmB).mpr hiff).length_eq
  simpa [activeIds, liveUserKeys, List.Nodup.dedup hmA] using hlen

/-- Running the same operations against both variants from related states
preserves the presence invariant through to the read instant, provided the
instants are nondecreasing. -/
theorem run_presence_inv (ops : List Op) :
    ∀ (sM sR : ServerState) (T now : ℕ),
      PresenceInv sM.visit_log sR.redis.users T →
      monotoneTimes (T :: ops.map opTime ++ [now]) = true →
      PresenceInv (run false sM ops).visit_log (run true sR ops).redis.users now := by
  induction ops with
  | nil =>
    intro sM sR T now inv hmono
    have hm2 : monotoneTimes (T :: now :: []) = true := hmono
    rw [monotoneTimes_cons2] at hm2
    have h1 : T ≤ now := by
      have := (Bool.and_eq_true _ _).mp hm2
      simpa using this.1
    exact presence_inv_mono inv h1
  | cons op rest ih =>
    intro sM sR T now inv hmono
    have hm2 : monotoneTimes (T :: opTime op :: (rest.map opTime ++ [now])) = true := hmono
    rw [monotoneTimes_cons2] at hm2
    have hsplit := (Bool.and_eq_true _ _).mp hm2
    have h1 : T ≤ opTime op := by simpa using hsplit.1
    have h2 : monotoneTimes (opTime op :: rest.map opTime ++ [now]) = true := hsplit.2
    cases op with
    | visit uid t =>
      exact ih (applyOp false sM (Op.visit uid t)) (applyOp true sR (Op.visit uid t)) t now
        (presence_inv_visit inv uid t h1) h2
    | tx t =>
      exact ih (applyOp false sM (Op.tx t)) (applyOp true sR (Op.tx t)) t now
        (presence_inv_mono inv h1) h2

/-- Running the same operations against both variants adds the same number
of transactions to the in-memory log and to the Redis lifetime total. -/
theorem run_total_eq (ops : List Op) :
    ∀ sM sR : ServerState,
      sM.transaction_log.length = sR.redis.total_transactions →
      (run false sM ops).transaction_log.length
        = (run true sR ops).redis.total_transactions := by
  induction ops with
  | nil =>
    intro sM sR h
    simpa [run] using h
  | cons op rest ih =>
    intro sM sR h
    simp only [run, List.foldl_cons]
    cases op with
    | visit uid t =>
      refine ih _ _ ?_
      exact h
    | tx t =>
      refine ih _ _ ?_
      show (sM.transaction_log ++ [t]).length = sR.redis.total_transactions + 1
      simp [h]

/-- C3 counterexample: the same single-operation sequence, a transaction at
second 59, read at second 61, makes the two variants disagree on the
per-minute rate: 1 in memory (rolling window) against 0 in Redis (fixed
calendar bucket). -/
theorem c3_counterexample :
    get_transactions_per_minute false none (run false initialState [Op.tx 59]) 61
      = Except.ok 1 ∧
    get_transactions_per_minute true none (run true initialState [Op.tx 59]) 61
      = Except.ok 0 ∧
    get_transactions_per_minute false none (run false initialState [Op.tx 59]) 61
      ≠ get_transactions_per_minute true none (run true initialState [Op.tx 59]) 61 := by
  refine ⟨rfl, rfl, ?_⟩
  intro h
  rw [show get_transactions_per_minute false none (run false initialState [Op.tx 59]) 61
      = Except.ok 1 from rfl,
    show get_transactions_per_minute true none (run true initialState [Op.tx 59]) 61
      = Except.ok 0 from rfl] at h
  simp at h

/-- C3 amended: over every operation sequence with nondecreasing instants
whose read happens no earlier than the last operation, the two variants
agree on the active count and on the lifetime total; their per-minute rates
are not equivalent (rolling window against fixed calendar bucket). -/
theorem c3_amended :
    ∀ (ops : List Op) (now : ℕ),
      chrono 0 ops now = true →
      get_connected_users false none (run false initialState ops) now
        = get_connected_users true none (run true initialState ops) now ∧
      get_total_transactions false none (run false initialState ops)
        = get_total_transactions true none (run true initialState ops) := by
  intro ops now hc
  have inv0 : PresenceInv initialState.visit_log initialState.redis.users 0 := by
    constructor <;> simp [initialState]
  have inv := run_presence_inv ops initialState initialState 0 now inv0 hc
  constructor
  · show Except.ok (activeIds (run false initialState ops).visit_log now).length
        = Except.ok (liveUserKeys (run true initialState ops).redis.users now).length
    rw [count_eq_of_inv inv (le_refl now)]
  · show Except.ok (run false initialState ops).transaction_log.length
        = Except.ok (run true initialState ops).redis.total_transactions
    rw [run_total_eq ops initialState initialState (by simp [initialState])]

/-- C3 amended witness: a concrete chronological sequence of two visitors
and one transaction, read at instant 25. -/
theorem c3_amended_witness :
    chrono 0 [Op.visit "a" 5, Op.tx 7, Op.visit "b" 20] 25 = true ∧
    (get_connected_users false none
        (run false initialState [Op.visit "a" 5, Op.tx 7, Op.visit "b" 20]) 25
      = get_connected_users true none
        (run true initialState [Op.visit "a" 5, Op.tx 7, Op.visit "b" 20]) 25 ∧
      get_total_transactions false none
        (run false initialState [Op.visit "a" 5, Op.tx 7, Op.visit "b" 20])
      = get_total_transactions true none
        (run true initialState [Op.visit "a" 5, Op.tx 7, Op.visit "b" 20])) :=
  ⟨rfl, c3_amended [Op.visit "a" 5, Op.tx 7, Op.visit "b" 20] 25 rfl⟩

/-- C2 amended witness: fresh state, concrete raw message. -/
theorem c2_amended_witness :
    (initialState.force_critical = false) ∧
    ((ping true none false initialState "u" 7 2).2.error = some "Redis connection lost" ∧
      (ping true (some "boom") true initialState "u" 7 2).2.error = some "boom") := by
  refine ⟨rfl, ?_, ?_⟩
  · exact (c2_amended "boom" "u" initialState 7 2 true rfl).1.2.1
  · exact (c2_amended "boom" "u" initialState 7 2 true rfl).2.2.1

end ServerMonitoring
